import Mathlib

/-!
# MokTech-Template: addon configuration records

The repository consists of two declarative configuration files,
`addons/common/config.cpp` and `addons/main/config.cpp`.  They are embedded
here as syntax trees, token for token: every assignment, every array, every
macro statement and every `#include` line of the two files is one constructor
application below.  Macro invocations stay unexpanded in the trees, because the
headers that define them are not part of the sources; where a statement needs
an expansion, the definition of the macro is a parameter or an explicitly
marked model.
-/

namespace MokTech

/-! ## Syntax of a configuration file -/

/-- The right-hand side of a scalar assignment, or one element of an array. -/
inductive Value where
  /-- A quoted string literal, `"..."`. -/
  | str (s : String)
  /-- An unquoted macro invocation: `NAME` (no arguments) or `NAME(a,b)`. -/
  | macroCall (name : String) (args : List String)
  deriving DecidableEq

/-- One line or block of a configuration file. -/
inductive Entry where
  /-- An include line, `#include "path"`. -/
  | incl (path : String)
  /-- A scalar assignment, `name = value;`. -/
  | scalar (name : String) (v : Value)
  /-- An array assignment, `name[] = {v1, v2, ...};`. -/
  | array (name : String) (items : List Value)
  /-- A macro used as a whole statement, `NAME;`. -/
  | stmt (macroName : String)
  /-- A class block, `class name { ... };`. -/
  | cls (name : String) (body : List Entry)

/-- The two shapes a field of a record can have. -/
inductive Kind where
  | scalar
  | array
  deriving DecidableEq

/-- An addon: its component directory `addons/<component>/` and the content of
the `config.cpp` in it. -/
structure Addon where
  component : String
  config : List Entry

/-! ## The two source files -/

/-- The file `addons/common/config.cpp`. -/
def commonConfig : List Entry :=
  [ Entry.incl "script_component.hpp",
    Entry.cls "CfgPatches"
      [ Entry.cls "ADDON"
          [ Entry.scalar "name" (Value.macroCall "COMPONENT_NAME" []),
            Entry.array "units" [],
            Entry.array "weapons" [],
            Entry.scalar "requiredVersion" (Value.macroCall "REQUIRED_VERSION" []),
            Entry.array "requiredAddons" [Value.str "mti_template_main"],
            Entry.scalar "author" (Value.macroCall "AUTHOR" []),
            Entry.array "authors" [Value.str ""],
            Entry.scalar "url" (Value.macroCall "ECSTRING" ["main", "URL"]),
            Entry.stmt "VERSION_CONFIG" ] ],
    Entry.incl "CfgEventHandlers.hpp" ]

/-- The file `addons/main/config.cpp`. -/
def mainConfig : List Entry :=
  [ Entry.incl "script_component.hpp",
    Entry.cls "CfgPatches"
      [ Entry.cls "ADDON"
          [ Entry.scalar "name" (Value.macroCall "COMPONENT_NAME" []),
            Entry.array "units" [],
            Entry.array "weapons" [],
            Entry.scalar "requiredVersion" (Value.macroCall "REQUIRED_VERSION" []),
            Entry.array "requiredAddons" [Value.str "cba_main", Value.str "ace_main"],
            Entry.scalar "author" (Value.macroCall "AUTHOR" []),
            Entry.array "authors" [Value.str ""],
            Entry.scalar "url" (Value.macroCall "CSTRING" ["URL"]),
            Entry.stmt "VERSION_CONFIG" ] ],
    Entry.cls "CfgMods"
      [ Entry.cls "PREFIX"
          [ Entry.scalar "dir" (Value.str "@MokTech Industries - Template"),
            Entry.scalar "name" (Value.str "MokTech Industires - Template"),
            Entry.scalar "picture"
              (Value.macroCall "QPATHTOEF" ["common", "data\\moktech_industries_logo.paa"]),
            Entry.scalar "hidePicture" (Value.str "true"),
            Entry.scalar "hideName" (Value.str "true"),
            Entry.scalar "actionName" (Value.str "Website"),
            Entry.scalar "action" (Value.macroCall "CSTRING" ["URL"]),
            Entry.scalar "description" (Value.str "") ] ],
    Entry.incl "CfgEventHandlers.hpp",
    Entry.incl "CfgSettings.hpp" ]

/-- The addon in `addons/common/`. -/
def commonAddon : Addon := ⟨"common", commonConfig⟩

/-- The addon in `addons/main/`. -/
def mainAddon : Addon := ⟨"main", mainConfig⟩

/-! ## Reading a configuration tree -/

/-- The body of the first class block called `n` among `es`. -/
def findClass (n : String) : List Entry → Option (List Entry)
  | [] => none
  | Entry.cls m body :: rest => if m = n then some body else findClass n rest
  | _ :: rest => findClass n rest

/-- The value of the first scalar assignment to `n` among `es`. -/
def findScalar (n : String) : List Entry → Option Value
  | [] => none
  | Entry.scalar m v :: rest => if m = n then some v else findScalar n rest
  | _ :: rest => findScalar n rest

/-- The elements of the first array assignment to `n[]` among `es`. -/
def findArray (n : String) : List Entry → Option (List Value)
  | [] => none
  | Entry.array m items :: rest => if m = n then some items else findArray n rest
  | _ :: rest => findArray n rest

/-- The fields a record body assigns, in source order, each with its shape. -/
def fieldsOf : List Entry → List (String × Kind)
  | [] => []
  | Entry.scalar n _ :: rest => (n, Kind.scalar) :: fieldsOf rest
  | Entry.array n _ :: rest => (n, Kind.array) :: fieldsOf rest
  | _ :: rest => fieldsOf rest

/-- Whether an entry is a field assignment (scalar or array). -/
def isField : Entry → Bool
  | Entry.scalar _ _ => true
  | Entry.array _ _ => true
  | _ => false

/-- The string literals among a list of values. -/
def literals : List Value → List String
  | [] => []
  | Value.str s :: rest => s :: literals rest
  | _ :: rest => literals rest

/-- The record `CfgPatches.ADDON` of a configuration file. -/
def patchRecord (cfg : List Entry) : Option (List Entry) :=
  (findClass "CfgPatches" cfg).bind (findClass "ADDON")

/-- The record `CfgMods.PREFIX` of a configuration file. -/
def modRecord (cfg : List Entry) : Option (List Entry) :=
  (findClass "CfgMods" cfg).bind (findClass "PREFIX")

/-- The `requiredAddons[]` array of the patch record. -/
def requiredAddons (cfg : List Entry) : Option (List Value) :=
  (patchRecord cfg).bind (findArray "requiredAddons")

/-- The identifiers listed in `requiredAddons[]` (empty when there is no such
array). -/
def requiredAddonNames (cfg : List Entry) : List String :=
  literals ((requiredAddons cfg).getD [])

mutual
/-- Every value assigned anywhere inside an entry, nested classes included. -/
def valuesOf : Entry → List Value
  | Entry.incl _ => []
  | Entry.scalar _ v => [v]
  | Entry.array _ items => items
  | Entry.stmt _ => []
  | Entry.cls _ body => valuesOfList body
/-- Every value assigned anywhere inside a list of entries. -/
def valuesOfList : List Entry → List Value
  | [] => []
  | e :: rest => valuesOf e ++ valuesOfList rest
end

mutual
/-- The names of all class blocks inside an entry, at any depth. -/
def classNamesOf : Entry → List String
  | Entry.cls n body => n :: classNamesOfList body
  | _ => []
/-- The names of all class blocks inside a list of entries, at any depth. -/
def classNamesOfList : List Entry → List String
  | [] => []
  | e :: rest => classNamesOf e ++ classNamesOfList rest
end

mutual
/-- Replace every macro statement `NAME;` inside an entry by the entries that
`env NAME` gives for it. -/
def expandEntry (env : String → List Entry) : Entry → List Entry
  | Entry.stmt m => env m
  | Entry.cls n body => [Entry.cls n (expandList env body)]
  | Entry.incl p => [Entry.incl p]
  | Entry.scalar n v => [Entry.scalar n v]
  | Entry.array n items => [Entry.array n items]
/-- Replace every macro statement inside a list of entries. -/
def expandList (env : String → List Entry) : List Entry → List Entry
  | [] => []
  | e :: rest => expandEntry env e ++ expandList env rest
end


/-! ## Macros defined outside the two files -/

/-- Modelled from the spec: the `ADDON` macro, which names the `CfgPatches`
record of a component and is defined in a header outside the sources.  It
joins `PREFIX` and `COMPONENT` with an underscore (`mti_template_main` for the
prefix `mti_template` and the component `main`); the prefix stays a
parameter. -/
def ADDON (pfx component : String) : String :=
  pfx ++ "_" ++ component

/-- Modelled from the spec: the `CSTRING` macro (defined in a header outside
the sources), the string-table key of `key` in the component of the file itself. -/
def CSTRING (pfx component key : String) : String :=
  "$STR_" ++ pfx ++ "_" ++ component ++ "_" ++ key

/-- Modelled from the spec: the `ECSTRING` macro (defined in a header outside
the sources), the string-table key of `key` in the named component. -/
def ECSTRING (pfx component key : String) : String :=
  "$STR_" ++ pfx ++ "_" ++ component ++ "_" ++ key

/-- The string a value denotes in a file of component `own`: a literal denotes
itself, `CSTRING(k)` and `ECSTRING(c,k)` denote their string-table keys; no
other macro is given a meaning. -/
def stringOf (pfx own : String) : Value → Option String
  | Value.str s => some s
  | Value.macroCall m args =>
      if m = "CSTRING" then
        match args with
        | [k] => some (CSTRING pfx own k)
        | _ => none
      else if m = "ECSTRING" then
        match args with
        | [c, k] => some (ECSTRING pfx c k)
        | _ => none
      else none

/-- The text of a value that is a string literal. -/
def literalOf : Value → Option String
  | Value.str s => some s
  | Value.macroCall _ _ => none

/-- The macros of the two files whose first argument names a component. -/
def crossComponentMacros : List String := ["ECSTRING", "QPATHTOEF"]

/-- The component a value refers to through a cross-component macro. -/
def crossRef : Value → Option String
  | Value.macroCall m (c :: _) => if m ∈ crossComponentMacros then some c else none
  | _ => none

/-- The components other than its own that the config of an addon refers to
through a cross-component macro. -/
def referencedComponents (a : Addon) : List String :=
  ((valuesOfList a.config).filterMap crossRef).filter (fun c => decide (c ≠ a.component))

/-- Every other component the config refers to is named, as an addon, in the
`requiredAddons[]` of that same config. -/
def coversCrossRefs (pfx : String) (a : Addon) : Prop :=
  ∀ c ∈ referencedComponents a, ADDON pfx c ∈ requiredAddonNames a.config

instance (pfx : String) (a : Addon) : Decidable (coversCrossRefs pfx a) := by
  unfold coversCrossRefs
  infer_instance

/-- Modelled from the spec: `VERSION_CONFIG` is defined in a header outside the
sources; the patch record of the spec has a `version` field and no other line
of the record assigns one.  This sample expansion is the one of the CBA framework:
`version = VERSION; versionStr = QUOTE(VERSION_STR); versionAr[] = {VERSION_AR}`. -/
def cbaStatements (m : String) : List Entry :=
  if m = "VERSION_CONFIG" then
    [ Entry.scalar "version" (Value.macroCall "VERSION" []),
      Entry.scalar "versionStr" (Value.macroCall "QUOTE" ["VERSION_STR"]),
      Entry.array "versionAr" [Value.macroCall "VERSION_AR" []] ]
  else []

/-- The nine fields of a patch record, each with its shape. -/
def patchFields : List (String × Kind) :=
  [ ("name", Kind.scalar), ("units", Kind.array), ("weapons", Kind.array),
    ("requiredVersion", Kind.scalar), ("requiredAddons", Kind.array),
    ("author", Kind.scalar), ("authors", Kind.array), ("url", Kind.scalar),
    ("version", Kind.scalar) ]

/-- The eight fields of a mod record. -/
def modFields : List String :=
  ["dir", "name", "picture", "hidePicture", "hideName", "actionName", "action", "description"]

/-- The `dir` of the mod record, when it is a string literal. -/
def modDir (cfg : List Entry) : Option String :=
  ((modRecord cfg).bind (findScalar "dir")).bind literalOf

/-- The `name` of the mod record, when it is a string literal. -/
def modName (cfg : List Entry) : Option String :=
  ((modRecord cfg).bind (findScalar "name")).bind literalOf

/-- The mod directory is `@` followed by the displayed mod name. -/
def dirMatchesName (cfg : List Entry) : Prop :=
  modDir cfg = (modName cfg).map (fun n => "@" ++ n)

instance (cfg : List Entry) : Decidable (dirMatchesName cfg) := by
  unfold dirMatchesName
  infer_instance

/-- The positions at which two strings differ, with the two characters found
there (over the common length). -/
def mismatches (a b : String) : List (Nat × Char × Char) :=
  (List.zip a.data b.data).enum.filter (fun p => decide (p.2.1 ≠ p.2.2))

/-- The lines of the patch record itself assign the first eight of
`patchFields`, in this order, and its only other line is the statement
`VERSION_CONFIG`. -/
def literalPatchShape (cfg : List Entry) : Prop :=
  (patchRecord cfg).map fieldsOf = some patchFields.dropLast ∧
  (patchRecord cfg).map (fun r => r.filter (fun e => !isField e))
    = some [Entry.stmt "VERSION_CONFIG"]

/-- After the statement macros are expanded by `env`, the patch record exists
and assigns every one of `patchFields` with its shape. -/
def definesPatchFields (env : String → List Entry) (cfg : List Entry) : Prop :=
  ∃ r, patchRecord (expandList env cfg) = some r ∧ patchFields ⊆ fieldsOf r

/-! ## Auxiliary facts -/

theorem fieldsOf_append (xs ys : List Entry) :
    fieldsOf (xs ++ ys) = fieldsOf xs ++ fieldsOf ys := by
  induction xs with
  | nil => rfl
  | cons e rest ih => cases e <;> simp [fieldsOf, ih]

theorem common_requiredAddonNames : requiredAddonNames commonConfig = ["mti_template_main"] := by
  decide

theorem main_requiredAddonNames : requiredAddonNames mainConfig = ["cba_main", "ace_main"] := by
  decide

theorem common_referencedComponents : referencedComponents commonAddon = ["main"] := by
  decide

theorem main_referencedComponents : referencedComponents mainAddon = ["common"] := by
  decide


theorem ADDON_main_eq (pfx : String) :
    ADDON pfx "main" = "mti_template_main" ↔ pfx = "mti_template" := by
  constructor
  · intro h
    have h2 : pfx.data ++ "_main".data = "mti_template".data ++ "_main".data := by
      have := congrArg String.data h
      simpa [ADDON, List.append_assoc] using this
    exact String.ext ((List.append_left_inj _).1 h2)
  · intro h
    subst h
    decide

theorem ADDON_common_ne (pfx t : String) (ht : t.data.reverse.take 2 ≠ ['n', 'o']) :
    ADDON pfx "common" ≠ t := by
  intro e
  apply ht
  rw [← e]
  simp [ADDON, List.reverse_append]

theorem ADDON_common_not_required (pfx : String) :
    ADDON pfx "common" ∉ requiredAddonNames mainConfig := by
  intro h
  rw [main_requiredAddonNames] at h
  simp only [List.mem_cons, List.mem_singleton, List.not_mem_nil, or_false] at h
  rcases h with h | h
  · exact ADDON_common_ne pfx _ (by decide) h
  · exact ADDON_common_ne pfx _ (by decide) h

/-! ## The patch records -/

/-- C1: in `addons/main/config.cpp` the array `requiredAddons[]` of the
`CfgPatches` record is the two-element list `"cba_main", "ace_main"`: it is not
empty, has no repeated element, and an identifier is in it exactly when it is
one of these two. -/
theorem main_requiredAddons_exact :
    requiredAddons mainConfig = some [Value.str "cba_main", Value.str "ace_main"] ∧
    requiredAddonNames mainConfig ≠ [] ∧
    (requiredAddonNames mainConfig).length = 2 ∧
    (requiredAddonNames mainConfig).Nodup ∧
    ∀ x, x ∈ requiredAddonNames mainConfig ↔ (x = "cba_main" ∨ x = "ace_main") := by
  refine ⟨by decide, by decide, by decide, by decide, ?_⟩
  intro x
  rw [main_requiredAddonNames]
  simp

/-- C2: in `addons/common/config.cpp` the array `requiredAddons[]` of the
`CfgPatches` record is the one-element list `"mti_template_main"`: it is not
empty and an identifier is in it exactly when it is `mti_template_main`. -/
theorem common_requiredAddons_exact :
    requiredAddons commonConfig = some [Value.str "mti_template_main"] ∧
    requiredAddonNames commonConfig ≠ [] ∧
    (requiredAddonNames commonConfig).length = 1 ∧
    ∀ x, x ∈ requiredAddonNames commonConfig ↔ x = "mti_template_main" := by
  refine ⟨by decide, by decide, by decide, ?_⟩
  intro x
  rw [common_requiredAddonNames]
  simp

/-- C5: in both configs the `CfgPatches` record assigns, in its own lines, the
eight fields name, units[], weapons[], requiredVersion, requiredAddons[],
author, authors[] and url with the stated shapes, and ends with the statement
`VERSION_CONFIG`; under every definition of the statement macros in which
`VERSION_CONFIG` assigns a scalar `version`, the expanded record defines each
of the nine fields, units, weapons, requiredAddons and authors as arrays and
the other five as scalars. -/
theorem patch_record_fields (env : String → List Entry)
    (hver : ("version", Kind.scalar) ∈ fieldsOf (env "VERSION_CONFIG")) :
    (literalPatchShape commonConfig ∧ definesPatchFields env commonConfig) ∧
    (literalPatchShape mainConfig ∧ definesPatchFields env mainConfig) := by
  refine ⟨⟨⟨by decide, rfl⟩, ?_⟩, ⟨⟨by decide, rfl⟩, ?_⟩⟩
  · refine ⟨_, by simp [commonConfig, expandList, expandEntry, patchRecord, findClass]; rfl, ?_⟩
    intro f hf
    simp [patchFields] at hf
    simp [fieldsOf_append, fieldsOf]
    rcases hf with rfl | rfl | rfl | rfl | rfl | rfl | rfl | rfl | rfl <;> simp [hver]
  · refine ⟨_, by simp [mainConfig, expandList, expandEntry, patchRecord, findClass]; rfl, ?_⟩
    intro f hf
    simp [patchFields] at hf
    simp [fieldsOf_append, fieldsOf]
    rcases hf with rfl | rfl | rfl | rfl | rfl | rfl | rfl | rfl | rfl <;> simp [hver]

/-- Witness for C5: the expansion of `VERSION_CONFIG` in `cbaStatements`
assigns a scalar `version`, and with it both patch records define all nine
fields. -/
theorem patch_record_fields_witness :
    ("version", Kind.scalar) ∈ fieldsOf (cbaStatements "VERSION_CONFIG") ∧
    (literalPatchShape commonConfig ∧ definesPatchFields cbaStatements commonConfig) ∧
    (literalPatchShape mainConfig ∧ definesPatchFields cbaStatements mainConfig) :=
  ⟨by decide, patch_record_fields cbaStatements (by decide)⟩

/-- C7: in both configs the `units[]` array and the `weapons[]` array of the
`CfgPatches` record are present and empty. -/
theorem units_weapons_empty :
    (patchRecord commonConfig).bind (findArray "units") = some [] ∧
    (patchRecord commonConfig).bind (findArray "weapons") = some [] ∧
    (patchRecord mainConfig).bind (findArray "units") = some [] ∧
    (patchRecord mainConfig).bind (findArray "weapons") = some [] := by
  decide

/-! ## The mod record -/

/-- C3: the `CfgMods` record of the main addon assigns `hidePicture` and
`hideName` as scalars whose value is the quoted string `"true"`; neither is an
unquoted token and neither is assigned as an array. -/
theorem mod_hide_flags_true :
    (modRecord mainConfig).bind (findScalar "hidePicture") = some (Value.str "true") ∧
    (modRecord mainConfig).bind (findScalar "hideName") = some (Value.str "true") ∧
    (modRecord mainConfig).bind (findArray "hidePicture") = none ∧
    (modRecord mainConfig).bind (findArray "hideName") = none := by
  decide

/-- C6: the `CfgMods` record of the main addon consists of field assignments
only, and they are the eight scalars dir, name, picture, hidePicture, hideName,
actionName, action and description, each once and nothing else; `PREFIX` is the
only class inside `CfgMods`; `addons/common/config.cpp` has no class `CfgMods`
at any depth and so no mod record. -/
theorem mod_record_fields :
    (∃ r, modRecord mainConfig = some r ∧
      r.all isField = true ∧
      fieldsOf r = modFields.map (fun n => (n, Kind.scalar)) ∧
      ((fieldsOf r).map Prod.fst).Nodup ∧
      ∀ n, n ∈ (fieldsOf r).map Prod.fst ↔ n ∈ modFields) ∧
    (findClass "CfgMods" mainConfig).map classNamesOfList = some ["PREFIX"] ∧
    "CfgMods" ∉ classNamesOfList commonConfig ∧
    modRecord commonConfig = none := by
  refine ⟨⟨_, rfl, by decide, by decide, by decide, ?_⟩, by decide, by decide, rfl⟩
  intro n
  have h : (fieldsOf
      [ Entry.scalar "dir" (Value.str "@MokTech Industries - Template"),
        Entry.scalar "name" (Value.str "MokTech Industires - Template"),
        Entry.scalar "picture"
          (Value.macroCall "QPATHTOEF" ["common", "data\\moktech_industries_logo.paa"]),
        Entry.scalar "hidePicture" (Value.str "true"),
        Entry.scalar "hideName" (Value.str "true"),
        Entry.scalar "actionName" (Value.str "Website"),
        Entry.scalar "action" (Value.macroCall "CSTRING" ["URL"]),
        Entry.scalar "description" (Value.str "") ]).map Prod.fst = modFields := by decide
  rw [h]

/-- C9: the code at the claim.  In the `CfgMods` record of the main addon `dir`
is `"@MokTech Industries - Template"` and `name` is
`"MokTech Industires - Template"`, so `dir` is not `@` followed by `name`: the
two spellings have the same length and differ at positions 15 and 16 only,
where the letters `r` and `i` are exchanged. -/
theorem mod_dir_name_mismatch :
    modDir mainConfig = some "@MokTech Industries - Template" ∧
    modName mainConfig = some "MokTech Industires - Template" ∧
    ¬ dirMatchesName mainConfig ∧
    "@MokTech Industries - Template".length = ("@" ++ "MokTech Industires - Template").length ∧
    mismatches "@MokTech Industries - Template" ("@" ++ "MokTech Industires - Template")
      = [(15, 'r', 'i'), (16, 'i', 'r')] := by
  decide

/-! ## References between the two addons -/

/-- C4, the claim as stated, refuted: with the prefix `mti_template` (the only
one under which the entry of the common config names the main addon) it is not
the case that each of the two configs names every other component it refers to
in its `requiredAddons[]`. -/
theorem main_cross_ref_not_required :
    ¬ (coversCrossRefs "mti_template" commonAddon ∧
       coversCrossRefs "mti_template" mainAddon) := by
  decide

/-- C4, amended: the common config refers to one other component, `main`
(through `ECSTRING(main,URL)`), and names its addon in `requiredAddons[]`
exactly when the prefix is `mti_template`; the main config refers to one other
component, `common` (through `QPATHTOEF(common,...)`), and its
`requiredAddons[]`, which is `"cba_main", "ace_main"`, does not name that
addon under any prefix. -/
theorem cross_refs_covered_by_common_only (pfx : String) :
    referencedComponents commonAddon = ["main"] ∧
    (coversCrossRefs pfx commonAddon ↔ pfx = "mti_template") ∧
    referencedComponents mainAddon = ["common"] ∧
    requiredAddonNames mainAddon.config = ["cba_main", "ace_main"] ∧
    ¬ coversCrossRefs pfx mainAddon := by
  refine ⟨by decide, ?_, by decide, by decide, ?_⟩
  · unfold coversCrossRefs
    rw [common_referencedComponents]
    show (∀ c ∈ ["main"], ADDON pfx c ∈ requiredAddonNames commonConfig) ↔ _
    rw [common_requiredAddonNames]
    simp [ADDON_main_eq]
  · unfold coversCrossRefs
    rw [main_referencedComponents]
    intro h
    exact ADDON_common_not_required pfx (h "common" (by simp))

/-- C10: in the main config the `url` of the patch record and the `action` of
the mod record are the same expression `CSTRING(URL)`, the `url` of the common
config is `ECSTRING(main,URL)`, and for every prefix all three denote the same
string-table key, `$STR_` then the prefix then `_main_URL`. -/
theorem url_fields_same_entry (pfx : String) :
    (patchRecord mainConfig).bind (findScalar "url") = some (Value.macroCall "CSTRING" ["URL"]) ∧
    (modRecord mainConfig).bind (findScalar "action") = some (Value.macroCall "CSTRING" ["URL"]) ∧
    (patchRecord commonConfig).bind (findScalar "url")
      = some (Value.macroCall "ECSTRING" ["main", "URL"]) ∧
    ECSTRING pfx "main" "URL" = CSTRING pfx mainAddon.component "URL" ∧
    ((patchRecord mainConfig).bind (findScalar "url")).bind (stringOf pfx mainAddon.component)
      = some ("$STR_" ++ pfx ++ "_" ++ "main" ++ "_" ++ "URL") ∧
    ((modRecord mainConfig).bind (findScalar "action")).bind (stringOf pfx mainAddon.component)
      = some ("$STR_" ++ pfx ++ "_" ++ "main" ++ "_" ++ "URL") ∧
    ((patchRecord commonConfig).bind (findScalar "url")).bind (stringOf pfx commonAddon.component)
      = some ("$STR_" ++ pfx ++ "_" ++ "main" ++ "_" ++ "URL") := by
  refine ⟨by decide, by decide, by decide, rfl, ?_, ?_, ?_⟩
  · have h : (patchRecord mainConfig).bind (findScalar "url")
        = some (Value.macroCall "CSTRING" ["URL"]) := by decide
    rw [h]
    simp [stringOf, CSTRING, mainAddon]
  · have h : (modRecord mainConfig).bind (findScalar "action")
        = some (Value.macroCall "CSTRING" ["URL"]) := by decide
    rw [h]
    simp [stringOf, CSTRING, mainAddon]
  · have h : (patchRecord commonConfig).bind (findScalar "url")
        = some (Value.macroCall "ECSTRING" ["main", "URL"]) := by decide
    rw [h]
    simp [stringOf, ECSTRING]

end MokTech
